import Mathlib

/-!
Verification development for the `pen-api-experiment` glyph-drawing library.

The Rust sources (`src/lib.rs`, `src/pen.rs`) are shallowly embedded here:

* `kurbo::Point` and `kurbo::Affine` (the external geometry substrate) are
  embedded with exact rational coordinates; `Affine` mirrors the kurbo
  six-coefficient representation, its point action and its matrix product.
* `norad::Name` (the external identifier substrate) is embedded as a string
  together with the spec-level validity predicate.
* Rust functions whose only failure channel is a panic (`assert!`,
  `.expect(..)`) return `RustOutcome`: `.ok v` for normal return, `.panic m`
  for a fatal, process-terminating assertion or expect failure with message
  `m`.  A recoverable `Result`-style error would instead appear as an
  `Except` value inside `.ok`; no function of this crate has such a channel.
* `&mut` state is threaded explicitly: a method mutating a receiver becomes a
  function from the receiver to the updated receiver.
-/

/-- Outcome of running a Rust function: normal return, or a fatal panic
(assertion failure / `expect`) carrying the panic message.  A panic aborts
the caller as well; it is not a recoverable, caller-facing error value. -/
inductive RustOutcome (α : Type) where
  | ok : α → RustOutcome α
  | panic : String → RustOutcome α
deriving DecidableEq, Repr

namespace RustOutcome

/-- Sequencing of Rust computations: a panic propagates. -/
def bind {α β : Type} : RustOutcome α → (α → RustOutcome β) → RustOutcome β
  | ok a, g => g a
  | panic m, _ => panic m

/-- Whether the outcome is a panic. -/
def isPanic {α : Type} : RustOutcome α → Bool
  | ok _ => false
  | panic _ => true

end RustOutcome

/-- Embeds `kurbo::Point`: a 2-D point.  `f64` coordinates are embedded as exact
rationals. -/
structure Point where
  x : ℚ
  y : ℚ
deriving DecidableEq, Repr

namespace Point

/-- Embeds `kurbo::Point::new`. -/
def new (x y : ℚ) : Point := ⟨x, y⟩

end Point

/-- Embeds `kurbo::Affine`: a 2-D affine transform stored as six coefficients
`[a0, a1, a2, a3, a4, a5]`, mapping `(x, y)` to
`(a0*x + a2*y + a4, a1*x + a3*y + a5)`. -/
structure Affine where
  a0 : ℚ
  a1 : ℚ
  a2 : ℚ
  a3 : ℚ
  a4 : ℚ
  a5 : ℚ
deriving DecidableEq, Repr

namespace Affine

/-- Embeds `impl Mul<Point> for Affine`: apply the transform to a point. -/
def applyTo (t : Affine) (p : Point) : Point :=
  ⟨t.a0 * p.x + t.a2 * p.y + t.a4, t.a1 * p.x + t.a3 * p.y + t.a5⟩

/-- Embeds `impl Mul for Affine`: matrix product; `(mul s o).applyTo p` applies `o`
first, then `s`. -/
def mul (s o : Affine) : Affine :=
  ⟨s.a0 * o.a0 + s.a2 * o.a1,
   s.a1 * o.a0 + s.a3 * o.a1,
   s.a0 * o.a2 + s.a2 * o.a3,
   s.a1 * o.a2 + s.a3 * o.a3,
   s.a0 * o.a4 + s.a2 * o.a5 + s.a4,
   s.a1 * o.a4 + s.a3 * o.a5 + s.a5⟩

/-- Embeds `kurbo::Affine::IDENTITY`. -/
def identity : Affine := ⟨1, 0, 0, 1, 0, 0⟩

/-- Embeds `kurbo::Affine::translate`. -/
def translate (x y : ℚ) : Affine := ⟨1, 0, 0, 1, x, y⟩

end Affine

/-- Modelled from the spec: the name-validation collaborator
(the identifier restrictions of `norad::Name`) is external to this repository.
Per the spec a name is valid when it is non-empty and every character lies
in the allowed identifier set; characters outside it (control characters)
are rejected. -/
def nameIsValid (s : String) : Bool :=
  !s.data.isEmpty
    && s.data.all (fun c => decide (0x20 ≤ c.toNat) && decide (c.toNat ≠ 0x7F))

/-- Embeds `norad::Name`: a validated identifier. -/
structure Name where
  str : String
deriving DecidableEq, Repr

namespace Name

/-- Modelled from the spec: `norad::Name::new`, the external
`validate(string) -> Identifier | ValidationError` collaborator; returns
`none` exactly when the string violates the identifier restrictions. -/
def new (s : String) : Option Name :=
  if nameIsValid s then some ⟨s⟩ else none

end Name

/-- Embeds `PointType` (src/lib.rs): the closed set of nine node kinds. -/
inductive PointType where
  | OffCurve
  | Move
  | SmoothMove
  | Line
  | SmoothLine
  | Curve
  | SmoothCurve
  | QCurve
  | SmoothQCurve
deriving DecidableEq, Repr

/-- Embeds `Node` (src/lib.rs): one point on a contour. -/
structure Node where
  pt : Point
  typ : PointType
deriving DecidableEq, Repr

namespace Node

/-- Embeds `Node::new`. -/
def new (x y : ℚ) (typ : PointType) : Node := ⟨Point.new x y, typ⟩

end Node

/-- Embeds `Anchor` (src/lib.rs): a named point of interest. -/
structure Anchor where
  pt : Point
  name : Name
deriving DecidableEq, Repr

namespace Anchor

/-- Embeds `Anchor::new`: builds the point and validates the name;
`.expect("Name must match UFO restrictions")` panics on an invalid name. -/
def new (x y : ℚ) (name : String) : RustOutcome Anchor :=
  match Name.new name with
  | some n => .ok ⟨Point.new x y, n⟩
  | none => .panic "Name must match UFO restrictions"

/-- Embeds `Anchor::apply_affine`: maps the point through the transform. -/
def apply_affine (a : Anchor) (transform : Affine) : Anchor :=
  ⟨transform.applyTo a.pt, a.name⟩

end Anchor

/-- Embeds `Component` (src/lib.rs): a reference to another glyph, placed via a
transform. -/
structure Component where
  base : Name
  transform : Affine
deriving DecidableEq, Repr

namespace Component

/-- Embeds `Component::new`: validates the base name;
`.expect("Name must match UFO restrictions")` panics on an invalid name. -/
def new (base : String) (transform : Affine) : RustOutcome Component :=
  match Name.new base with
  | some n => .ok ⟨n, transform⟩
  | none => .panic "Name must match UFO restrictions"

/-- Embeds `Component::apply_affine`: `self.transform = transform * self.transform`. -/
def apply_affine (c : Component) (transform : Affine) : Component :=
  ⟨c.base, transform.mul c.transform⟩

end Component

/-- Embeds `Contour` (src/lib.rs): an ordered outline path. -/
structure Contour where
  nodes : List Node
deriving DecidableEq, Repr

namespace Contour

/-- Embeds `Contour::new`. -/
def new : Contour := ⟨[]⟩

/-- Embeds `Contour::from_nodes`. -/
def from_nodes (nodes : List Node) : Contour := ⟨nodes⟩

/-- Embeds `Contour::apply_affine`: maps the point of every node through the transform. -/
def apply_affine (c : Contour) (transform : Affine) : Contour :=
  ⟨c.nodes.map (fun node => ⟨transform.applyTo node.pt, node.typ⟩)⟩

end Contour

/-- Embeds `Drawing` (src/lib.rs): the aggregate glyph representation. -/
structure Drawing where
  height_and_origin : Option (ℚ × ℚ)
  width : ℚ
  anchors : List Anchor
  components : List Component
  contours : List Contour
deriving DecidableEq, Repr

namespace Drawing

/-- Embeds `Drawing::new` / `Default`: the empty drawing. -/
def new : Drawing := ⟨none, 0, [], [], []⟩

/-- Embeds `Drawing::apply_affine`: applies the transform to every anchor, every
component and every contour, in place. -/
def apply_affine (d : Drawing) (transform : Affine) : Drawing :=
  { d with
    anchors := d.anchors.map (fun a => a.apply_affine transform)
    components := d.components.map (fun c => c.apply_affine transform)
    contours := d.contours.map (fun c => c.apply_affine transform) }

/-- Embeds `Drawing::add_anchor`: constructs an `Anchor` (which panics on an
invalid name) and appends it. -/
def add_anchor (d : Drawing) (x y : ℚ) (name : String) : RustOutcome Drawing :=
  (Anchor.new x y name).bind fun a => .ok { d with anchors := d.anchors ++ [a] }

end Drawing

/-- Embeds `PointPen` (src/pen.rs): the builder session.  The Rust struct holds
`&mut Drawing`; here the borrowed drawing is carried as a field and the
updated drawing is read back when the session ends. -/
structure PointPen where
  current_contour : Option Contour
  drawing : Drawing
deriving DecidableEq, Repr

namespace PointPen

/-- Embeds `PointPen::new` (also `Drawing::point_pen`): a fresh session, Idle. -/
def new (drawing : Drawing) : PointPen := ⟨none, drawing⟩

/-- Embeds `PointPen::begin_path`: `assert_eq!(self.current_contour, None)`, then
opens a new empty contour. -/
def begin_path (p : PointPen) : RustOutcome PointPen :=
  match p.current_contour with
  | none => .ok ⟨some Contour.new, p.drawing⟩
  | some _ => .panic "assertion failed: current_contour == None"

/-- Embeds `PointPen::end_path`: `assert!(self.current_contour.is_some())`, then
moves the current contour to the end of the contour list of the drawing. -/
def end_path (p : PointPen) : RustOutcome PointPen :=
  match p.current_contour with
  | some c =>
      .ok ⟨none, { p.drawing with contours := p.drawing.contours ++ [c] }⟩
  | none => .panic "assertion failed: current_contour.is_some()"

/-- Embeds `PointPen::add_point`: `assert!(self.current_contour.is_some())`, then
appends a node to the current contour. -/
def add_point (p : PointPen) (x y : ℚ) (segment_type : PointType) :
    RustOutcome PointPen :=
  match p.current_contour with
  | some c => .ok ⟨some ⟨c.nodes ++ [Node.new x y segment_type]⟩, p.drawing⟩
  | none => .panic "assertion failed: current_contour.is_some()"

/-- Embeds `PointPen::add_component`: constructs a `Component` (which panics on an
invalid name) and appends it to the drawing. -/
def add_component (p : PointPen) (glyph_name : String) (transform : Affine) :
    RustOutcome PointPen :=
  (Component.new glyph_name transform).bind fun c =>
    .ok ⟨p.current_contour,
         { p.drawing with components := p.drawing.components ++ [c] }⟩

end PointPen

/-! ## Session-level builder runs -/

/-- Converts a list of `add_point` call arguments to the node list those
calls produce, in call order. -/
def nodesOfCalls (calls : List (ℚ × ℚ × PointType)) : List Node :=
  calls.map (fun c => Node.new c.1 c.2.1 c.2.2)

namespace PointPen

/-- Runs a sequence of `add_point` calls, propagating panics. -/
def addPoints : PointPen → List (ℚ × ℚ × PointType) → RustOutcome PointPen
  | p, [] => .ok p
  | p, c :: rest =>
      (p.add_point c.1 c.2.1 c.2.2).bind fun q => q.addPoints rest

/-- Runs one complete `begin_path` / `add_point`* / `end_path` cycle. -/
def runCycle (p : PointPen) (calls : List (ℚ × ℚ × PointType)) :
    RustOutcome PointPen :=
  p.begin_path.bind fun q => (q.addPoints calls).bind fun r => r.end_path

/-- Runs a sequence of complete begin/end cycles. -/
def runCycles : PointPen → List (List (ℚ × ℚ × PointType)) → RustOutcome PointPen
  | p, [] => .ok p
  | p, calls :: rest => (p.runCycle calls).bind fun q => q.runCycles rest

/-- Ends the builder session: the Rust `PointPen` has no `Drop`
implementation, so dropping it releases the exclusive borrow and the bound
`Drawing` is whatever the completed operations left in it; an
unterminated `current_contour` is owned by the pen and freed with it. -/
def drop (p : PointPen) : Drawing := p.drawing

end PointPen

/-! ## Helper lemmas -/

/-- Applying a product transform to a point applies the right factor first,
then the left. -/
theorem Affine.mul_applyTo (s o : Affine) (p : Point) :
    (s.mul o).applyTo p = s.applyTo (o.applyTo p) := by
  simp only [Affine.mul, Affine.applyTo, Point.mk.injEq]
  constructor <;> ring

/-- Associativity of the affine matrix product. -/
theorem Affine.mul_assoc (a b c : Affine) :
    (a.mul b).mul c = a.mul (b.mul c) := by
  simp only [Affine.mul, Affine.mk.injEq]
  refine ⟨?_, ?_, ?_, ?_, ?_, ?_⟩ <;> ring

/-- Applying the identity transform fixes every point. -/
theorem Affine.identity_applyTo (p : Point) :
    Affine.identity.applyTo p = p := by
  simp [Affine.identity, Affine.applyTo]

/-- The identity transform is a left unit for the matrix product. -/
theorem Affine.identity_mul (t : Affine) : Affine.identity.mul t = t := by
  simp [Affine.identity, Affine.mul]

theorem anchor_apply_affine_comp (a : Anchor) (t1 t2 : Affine) :
    (a.apply_affine t1).apply_affine t2 = a.apply_affine (t2.mul t1) := by
  simp [Anchor.apply_affine, Affine.mul_applyTo]

theorem component_apply_affine_comp (c : Component) (t1 t2 : Affine) :
    (c.apply_affine t1).apply_affine t2 = c.apply_affine (t2.mul t1) := by
  simp [Component.apply_affine, Affine.mul_assoc]

theorem contour_apply_affine_comp (c : Contour) (t1 t2 : Affine) :
    (c.apply_affine t1).apply_affine t2 = c.apply_affine (t2.mul t1) := by
  simp [Contour.apply_affine, List.map_map, Function.comp, Affine.mul_applyTo]

/-! ## Claim theorems -/

/-- C1: `Drawing::apply_affine` maps every anchor point through the
transform, replaces every component transform by the product of the applied
transform with the existing one, maps every contour node point through the
transform leaving node types unchanged, and changes nothing else
(`height_and_origin` and `width` are untouched); it is a total function on
the drawing state, the in-place mutation being modelled by returning the
updated drawing. -/
theorem drawing_apply_affine_spec (d : Drawing) (t : Affine) :
    d.apply_affine t =
      ⟨d.height_and_origin, d.width,
       d.anchors.map (fun a => ⟨t.applyTo a.pt, a.name⟩),
       d.components.map (fun c => ⟨c.base, t.mul c.transform⟩),
       d.contours.map (fun c =>
         ⟨c.nodes.map (fun n => ⟨t.applyTo n.pt, n.typ⟩)⟩)⟩ := rfl

/-- C2: after `Component::apply_affine` with outer transform `t`, the new
component transform is `t` composed on the left with the existing one, and
applying it to any point equals applying the old transform first and then
`t`. -/
theorem component_transform_composition (c : Component) (t : Affine) :
    (c.apply_affine t).transform = t.mul c.transform ∧
    ∀ p : Point, (c.apply_affine t).transform.applyTo p
      = t.applyTo (c.transform.applyTo p) :=
  ⟨rfl, fun p => by simp [Component.apply_affine, Affine.mul_applyTo]⟩

/-- C6: applying `t1` then `t2` to a drawing equals applying the single
product transform `t2 * t1` once — for anchors, component transforms and
contour nodes alike. -/
theorem drawing_apply_affine_comp (d : Drawing) (t1 t2 : Affine) :
    (d.apply_affine t1).apply_affine t2 = d.apply_affine (t2.mul t1) := by
  simp only [Drawing.apply_affine, List.map_map]
  simp [Function.comp, anchor_apply_affine_comp, component_apply_affine_comp,
    contour_apply_affine_comp]

/-- C7: applying the identity transform leaves the drawing unchanged,
field for field. -/
theorem drawing_apply_affine_identity (d : Drawing) :
    d.apply_affine Affine.identity = d := by
  cases d with
  | mk h w anchors components contours =>
    simp [Drawing.apply_affine, Anchor.apply_affine, Component.apply_affine,
      Contour.apply_affine, Affine.identity_applyTo, Affine.identity_mul,
      List.map_id]

/-- C10: `Drawing::apply_affine` preserves `height_and_origin`, `width`,
every anchor name, every component base name and every node type, and it
preserves the length and order of the anchor, component and contour
sequences as well as of each node list. -/
theorem drawing_apply_affine_frame (d : Drawing) (t : Affine) :
    (d.apply_affine t).height_and_origin = d.height_and_origin ∧
    (d.apply_affine t).width = d.width ∧
    (d.apply_affine t).anchors.map Anchor.name = d.anchors.map Anchor.name ∧
    (d.apply_affine t).components.map Component.base
      = d.components.map Component.base ∧
    (d.apply_affine t).contours.map (fun c => c.nodes.map Node.typ)
      = d.contours.map (fun c => c.nodes.map Node.typ) ∧
    (d.apply_affine t).anchors.length = d.anchors.length ∧
    (d.apply_affine t).components.length = d.components.length ∧
    (d.apply_affine t).contours.length = d.contours.length ∧
    (d.apply_affine t).contours.map (fun c => c.nodes.length)
      = d.contours.map (fun c => c.nodes.length) := by
  refine ⟨rfl, rfl, ?_, ?_, ?_, ?_, ?_, ?_, ?_⟩ <;>
    simp [Drawing.apply_affine, Anchor.apply_affine, Component.apply_affine,
      Contour.apply_affine, List.map_map, Function.comp]

/-- Running `add_point` calls with an open contour never panics: the calls
append their nodes, in call order, to the open contour, and the drawing is
untouched. -/
theorem PointPen.addPoints_open :
    ∀ (calls : List (ℚ × ℚ × PointType)) (p : PointPen) (c : Contour),
      p.current_contour = some c →
      p.addPoints calls = .ok ⟨some ⟨c.nodes ++ nodesOfCalls calls⟩, p.drawing⟩
  | [], p, c, h => by
      cases p with
      | mk cur d =>
        cases h
        simp [PointPen.addPoints, nodesOfCalls]
  | call :: rest, p, c, h => by
      cases p with
      | mk cur d =>
        cases h
        simp only [PointPen.addPoints, PointPen.add_point, RustOutcome.bind]
        rw [PointPen.addPoints_open rest
          ⟨some ⟨c.nodes ++ [Node.new call.1 call.2.1 call.2.2]⟩, d⟩
          ⟨c.nodes ++ [Node.new call.1 call.2.1 call.2.2]⟩ rfl]
        simp [nodesOfCalls]

/-- Running one complete cycle from the Idle state never panics: it appends
exactly the contour described by the `add_point` calls and returns to Idle. -/
theorem PointPen.runCycle_idle (p : PointPen)
    (calls : List (ℚ × ℚ × PointType)) (h : p.current_contour = none) :
    p.runCycle calls =
      .ok ⟨none, { p.drawing with contours := p.drawing.contours ++ [Contour.from_nodes (nodesOfCalls calls)] }⟩ := by
  cases p with
  | mk cur d =>
    cases h
    simp only [PointPen.runCycle, PointPen.begin_path, RustOutcome.bind]
    rw [PointPen.addPoints_open calls ⟨some Contour.new, d⟩ Contour.new rfl]
    simp [RustOutcome.bind, PointPen.end_path, Contour.new, Contour.from_nodes]

/-- Running complete cycles from the Idle state appends the resulting
contours in cycle-completion order. -/
theorem PointPen.runCycles_idle :
    ∀ (sessions : List (List (ℚ × ℚ × PointType))) (p : PointPen),
      p.current_contour = none →
      p.runCycles sessions =
        .ok ⟨none, { p.drawing with contours := p.drawing.contours ++ sessions.map (fun cs => Contour.from_nodes (nodesOfCalls cs)) }⟩
  | [], p, h => by
      cases p with
      | mk cur d =>
        cases h
        simp [PointPen.runCycles]
  | calls :: rest, p, h => by
      cases p with
      | mk cur d =>
        cases h
        simp only [PointPen.runCycles, RustOutcome.bind,
          PointPen.runCycle_idle ⟨none, d⟩ calls rfl]
        rw [PointPen.runCycles_idle rest _ rfl]
        simp [List.append_assoc]

/-- C3: on a fresh builder session, one begin/add*/end cycle appends exactly
the contour whose nodes are the `add_point` calls, in call order, after the
contours the drawing already had; a sequence of complete cycles appends the
resulting contours in cycle-completion order. -/
theorem pen_order_preservation (d : Drawing)
    (calls : List (ℚ × ℚ × PointType))
    (sessions : List (List (ℚ × ℚ × PointType))) :
    (PointPen.new d).runCycle calls =
      .ok ⟨none, { d with contours := d.contours ++ [Contour.from_nodes (nodesOfCalls calls)] }⟩ ∧
    (PointPen.new d).runCycles sessions =
      .ok ⟨none, { d with contours := d.contours ++ sessions.map (fun cs => Contour.from_nodes (nodesOfCalls cs)) }⟩ :=
  ⟨PointPen.runCycle_idle (PointPen.new d) calls rfl,
   PointPen.runCycles_idle sessions (PointPen.new d) rfl⟩

/-- C5: calling `add_point` or `end_path` while no contour is open, or
`begin_path` while one is open, is a fatal assertion panic, not a
recoverable error; under the documented preconditions the assertion branch
is unreachable (the calls return normally). -/
theorem pen_precondition_enforcement (p : PointPen) (x y : ℚ)
    (t : PointType) :
    (p.current_contour = none →
      (p.add_point x y t).isPanic = true ∧
      p.end_path.isPanic = true ∧
      ∃ q, p.begin_path = .ok q) ∧
    (∀ c, p.current_contour = some c →
      p.begin_path.isPanic = true ∧
      (∃ q, p.add_point x y t = .ok q) ∧
      ∃ q, p.end_path = .ok q) := by
  cases p with
  | mk cur d =>
    constructor
    · intro h
      cases h
      exact ⟨rfl, rfl, _, rfl⟩
    · intro c h
      cases h
      exact ⟨rfl, ⟨_, rfl⟩, _, rfl⟩

/-- Witness for C5 at two concrete pens: an Idle pen panics on `add_point`,
and a pen with an open contour panics on `begin_path`. -/
theorem pen_precondition_enforcement_witness :
    ((PointPen.new Drawing.new).add_point 0 0 PointType.Move).isPanic = true ∧
    (PointPen.mk (some Contour.new) Drawing.new).begin_path.isPanic = true :=
  ⟨((pen_precondition_enforcement (PointPen.new Drawing.new) 0 0
      PointType.Move).1 rfl).1,
   ((pen_precondition_enforcement (PointPen.mk (some Contour.new) Drawing.new)
      0 0 PointType.Move).2 Contour.new rfl).1⟩

/-- C9: during a builder session only `end_path` and `add_component` touch
the bound drawing: `begin_path` and `add_point` leave it unchanged,
`end_path` only appends the finished contour, `add_component` only appends
the component; the contour under construction lives in the pen, so a
session dropped after begin/add calls yields the drawing exactly as it was
after the last completed operation, the open contour silently discarded. -/
theorem pen_session_frame (p : PointPen) (x y : ℚ) (t : PointType)
    (s : String) (tr : Affine) (calls : List (ℚ × ℚ × PointType)) :
    (∀ q, p.begin_path = .ok q → q.drawing = p.drawing) ∧
    (∀ q, p.add_point x y t = .ok q → q.drawing = p.drawing) ∧
    (∀ c, p.current_contour = some c →
      p.end_path =
        .ok ⟨none, { p.drawing with contours := p.drawing.contours ++ [c] }⟩) ∧
    (∀ comp, Component.new s tr = .ok comp →
      p.add_component s tr =
        .ok ⟨p.current_contour, { p.drawing with components := p.drawing.components ++ [comp] }⟩) ∧
    (p.current_contour = none →
      ∀ q, (p.begin_path.bind fun r => r.addPoints calls) = .ok q →
        q.current_contour = some (Contour.from_nodes (nodesOfCalls calls)) ∧
        q.drop = p.drawing) := by
  cases p with
  | mk cur d =>
    refine ⟨?_, ?_, ?_, ?_, ?_⟩
    · intro q h
      cases cur with
      | none => cases h; rfl
      | some c => cases h
    · intro q h
      cases cur with
      | none => cases h
      | some c => cases h; rfl
    · intro c h
      cases h
      rfl
    · intro comp h
      simp [PointPen.add_component, h, RustOutcome.bind]
    · intro h
      cases h
      intro q hq
      simp only [PointPen.begin_path, RustOutcome.bind] at hq
      rw [PointPen.addPoints_open calls ⟨some Contour.new, d⟩
        Contour.new rfl] at hq
      cases hq
      exact ⟨rfl, rfl⟩

/-- Witness for C9 at concrete pens: `end_path` on an open pen appends the
open contour, and an Idle pen that begins a path and adds one point, then
is dropped, leaves the drawing untouched. -/
theorem pen_session_frame_witness :
    ((PointPen.mk (some Contour.new) Drawing.new).end_path =
      .ok ⟨none, { Drawing.new with contours := Drawing.new.contours ++ [Contour.new] }⟩) ∧
    (∀ q, ((PointPen.new Drawing.new).begin_path.bind
        fun r => r.addPoints [(1, 2, PointType.Move)]) = .ok q →
      q.drop = Drawing.new) :=
  ⟨(pen_session_frame (PointPen.mk (some Contour.new) Drawing.new) 0 0
      PointType.Move "a" Affine.identity []).2.2.1 Contour.new rfl,
   fun q hq =>
    ((pen_session_frame (PointPen.new Drawing.new) 0 0 PointType.Move "a"
        Affine.identity [(1, 2, PointType.Move)]).2.2.2.2 rfl q hq).2⟩

/-- C4 counterexample: constructing an Anchor or a Component from the empty
string (which violates the identifier restrictions) ends in a fatal
`expect` panic — the same process-terminating channel as the builder
assertions — not in a recoverable, caller-facing error value surfaced to
the caller, refuting the claim as stated: the constructor return types
carry no error case, so the only failure channel is the panic. -/
theorem invalid_name_panics_counterexample :
    Anchor.new 0 0 "" = .panic "Name must match UFO restrictions" ∧
    (Anchor.new 0 0 "").isPanic = true ∧
    Component.new "" Affine.identity = .panic "Name must match UFO restrictions" ∧
    (Component.new "" Affine.identity).isPanic = true := by
  refine ⟨?_, ?_, ?_, ?_⟩ <;> rfl

/-- C4 (amended): for every name that violates the identifier restrictions,
constructing an Anchor or a Component — directly, via
`Drawing::add_anchor`, or via `PointPen::add_component` — fails with a
fatal `expect` panic, and no partial state results: the panic happens
before any append, so no Anchor or Component is added to the drawing. -/
theorem invalid_name_construction_panics (x y : ℚ) (s : String) (tr : Affine)
    (d : Drawing) (p : PointPen) (h : nameIsValid s = false) :
    Anchor.new x y s = .panic "Name must match UFO restrictions" ∧
    Component.new s tr = .panic "Name must match UFO restrictions" ∧
    d.add_anchor x y s = .panic "Name must match UFO restrictions" ∧
    p.add_component s tr = .panic "Name must match UFO restrictions" := by
  simp [Anchor.new, Component.new, Drawing.add_anchor, PointPen.add_component,
    Name.new, h, RustOutcome.bind]

/-- Witness for the amended C4 at the empty string. -/
theorem invalid_name_construction_panics_witness :
    Drawing.new.add_anchor 0 0 "" = .panic "Name must match UFO restrictions" ∧
    (PointPen.new Drawing.new).add_component "" Affine.identity
      = .panic "Name must match UFO restrictions" :=
  ⟨(invalid_name_construction_panics 0 0 "" Affine.identity Drawing.new
      (PointPen.new Drawing.new) (by decide)).2.2.1,
   (invalid_name_construction_panics 0 0 "" Affine.identity Drawing.new
      (PointPen.new Drawing.new) (by decide)).2.2.2⟩

/-- C8: the end-to-end scenario: on an empty drawing, add anchor `a` at
the origin, run one builder cycle with points `(0,0,Move)` and
`(1,1,Line)`, add component `b` with transform `translate(1,1)`, then
apply `translate(123,456)` to the whole drawing; the result has anchor `a`
at `(123,456)`, exactly one contour with nodes `(123,456,Move)` and
`(124,457,Line)`, and exactly one component `b` whose transform is the
pure translation by `(124,457)`. -/
theorem pen_end_to_end_scenario :
    ((Drawing.new.add_anchor 0 0 "a").bind fun d1 =>
      ((PointPen.new d1).begin_path).bind fun p1 =>
      (p1.add_point 0 0 PointType.Move).bind fun p2 =>
      (p2.add_point 1 1 PointType.Line).bind fun p3 =>
      p3.end_path.bind fun p4 =>
      (p4.add_component "b" (Affine.translate 1 1)).bind fun p5 =>
      .ok (p5.drop.apply_affine (Affine.translate 123 456)))
    = .ok ⟨none, 0,
        [⟨Point.new 123 456, ⟨"a"⟩⟩],
        [⟨⟨"b"⟩, Affine.translate 124 457⟩],
        [Contour.from_nodes [Node.new 123 456 PointType.Move,
                             Node.new 124 457 PointType.Line]]⟩ := by
  have ha : Name.new "a" = some ⟨"a"⟩ := by
    have hv : nameIsValid "a" = true := by decide
    simp [Name.new, hv]
  have hb : Name.new "b" = some ⟨"b"⟩ := by
    have hv : nameIsValid "b" = true := by decide
    simp [Name.new, hv]
  simp only [Drawing.new, Drawing.add_anchor, Anchor.new, ha, hb,
    RustOutcome.bind, PointPen.new, PointPen.begin_path, PointPen.add_point,
    PointPen.end_path, PointPen.add_component, Component.new, PointPen.drop,
    Contour.new, Contour.from_nodes, Drawing.apply_affine,
    Anchor.apply_affine, Component.apply_affine, Contour.apply_affine,
    Affine.translate, Affine.applyTo, Affine.mul, Point.new, Node.new,
    List.map_cons, List.map_nil, List.append_nil, List.nil_append]
  norm_num
